import Mathlib

/-!
Shallow embedding of the bear-mcp-server retrieval engine
(src/utils.js, src/create-index.js, src/bear-mcp-server.js).

Machine reals (embedding coordinates, distances, scores) are modelled by Int:
on the modelled paths the code only adds, subtracts, multiplies and compares
these values, so any linearly ordered commutative ring is a faithful carrier
and an executable one is chosen;
database rows by explicit structures; fallible operations by Except.
-/

namespace Bear

/-- A row of the ZSFNOTE table, with the columns the code reads.
Nullable columns are Option. -/
structure Note where
  id : String
  title : Option String
  content : Option String
  subtitle : Option String
  creationDate : Option Int
  modificationDate : Int
  trashed : Bool
deriving DecidableEq

/-- The read-only note store: the ZSFNOTE rows plus the tag junction
(note identifier, tag name) pairs produced by the Z_5TAGS joins. -/
structure Db where
  notes : List Note
  tagPairs : List (String × String)
deriving DecidableEq

/-- Tag names for one note identifier (the tag-join query in utils.js). -/
def tagsFor (db : Db) (id : String) : List String :=
  (db.tagPairs.filter (fun p => decide (p.1 = id))).map Prod.snd

/-- The creation_date field after the conversion step: SQL NULL, an
unconverted raw domain value, or an ISO instant (kept as Unix seconds,
since toISOString is injective on instants). -/
inductive DateField where
  | null : DateField
  | raw : Int → DateField
  | iso : Int → DateField
deriving DecidableEq

/-- Model of the conversion block
  if (note.creation_date) { note.creation_date =
    new Date((note.creation_date + 978307200) * 1000).toISOString(); }
JS truthiness: null and 0 are falsy, every other number is truthy. -/
def convertCreationDate : Option Int → DateField
  | none => DateField.null
  | some t => if t = 0 then DateField.raw 0 else DateField.iso (t + 978307200)

/-- ASCII-case-insensitive character comparison, as in SQLite default LIKE. -/
def charEqCI (a b : Char) : Bool := a.toLower = b.toLower

/-- SQLite LIKE pattern matching over the whole string:
percent matches any run of characters, underscore any single character,
plain characters match ASCII-case-insensitively. -/
def likeMatch : List Char → List Char → Bool
  | [], s => s.isEmpty
  | p :: ps, s =>
    if p = '%' then s.tails.any (fun t => likeMatch ps t)
    else
      match s with
      | [] => false
      | c :: s2 => (decide (p = '_') || charEqCI p c) && likeMatch ps s2

/-- The pattern the keyword SQL builds from a query: percent-wrapped. -/
def likePattern (q : String) : List Char := '%' :: (q.data ++ ['%'])

/-- LIKE applied to a nullable column: NULL never matches. -/
def likeOpt (pat : List Char) : Option String → Bool
  | none => false
  | some s => likeMatch pat s.data

/-- The keyword WHERE clause on one row: ZTITLE LIKE pat OR ZTEXT LIKE pat. -/
def matchesKeyword (q : String) (n : Note) : Bool :=
  likeOpt (likePattern q) n.title || likeOpt (likePattern q) n.content

/-- Literal (case-sensitive) substring containment, used to state claims
about what a query being "contained as a substring" means. -/
def hasSubstr (needle hay : List Char) : Bool :=
  hay.tails.any (fun t => needle.isPrefixOf t)

/-! ### Sorting (model of SQL ORDER BY and JS Array.prototype.sort) -/

/-- Insert one element into a list so that elements satisfying le come first. -/
def insertBy {α : Type} (le : α → α → Bool) (x : α) : List α → List α
  | [] => [x]
  | y :: ys => if le x y then x :: y :: ys else y :: insertBy le x ys

/-- Insertion sort by a boolean comparison. -/
def sortBy {α : Type} (le : α → α → Bool) : List α → List α
  | [] => []
  | x :: xs => insertBy le x (sortBy le xs)

theorem insertBy_perm {α : Type} (le : α → α → Bool) (x : α) (l : List α) :
    (insertBy le x l).Perm (x :: l) := by
  induction l with
  | nil => simp [insertBy]
  | cons y ys ih =>
    simp only [insertBy]
    by_cases h : le x y = true
    · simp [h]
    · simp only [h, if_false]
      exact (ih.cons y).trans (List.Perm.swap x y ys)

theorem sortBy_perm {α : Type} (le : α → α → Bool) (l : List α) :
    (sortBy le l).Perm l := by
  induction l with
  | nil => simp [sortBy]
  | cons x xs ih =>
    exact (insertBy_perm le x (sortBy le xs)).trans (ih.cons x)

theorem mem_sortBy {α : Type} {le : α → α → Bool} {x : α} {l : List α} :
    x ∈ sortBy le l ↔ x ∈ l := (sortBy_perm le l).mem_iff

theorem length_sortBy {α : Type} (le : α → α → Bool) (l : List α) :
    (sortBy le l).length = l.length := (sortBy_perm le l).length_eq

theorem mem_insertBy {α : Type} {le : α → α → Bool} {a x : α} {l : List α} :
    a ∈ insertBy le x l ↔ a = x ∨ a ∈ l := by
  rw [(insertBy_perm le x l).mem_iff]
  simp

theorem pairwise_insertBy {α : Type} {le : α → α → Bool}
    (htot : ∀ a b, le a b = true ∨ le b a = true)
    (htrans : ∀ a b c, le a b = true → le b c = true → le a c = true)
    {x : α} {l : List α} (h : l.Pairwise (fun a b => le a b = true)) :
    (insertBy le x l).Pairwise (fun a b => le a b = true) := by
  induction l with
  | nil => simp [insertBy]
  | cons y ys ih =>
    rw [List.pairwise_cons] at h
    obtain ⟨hy, hys⟩ := h
    by_cases hxy : le x y = true
    · simp only [insertBy, hxy, if_true]
      refine List.Pairwise.cons ?_ (List.Pairwise.cons hy hys)
      intro b hb
      rcases List.mem_cons.mp hb with hb | hb
      · exact hb ▸ hxy
      · exact htrans x y b hxy (hy b hb)
    · simp only [insertBy, hxy, if_false]
      refine List.Pairwise.cons ?_ (ih hys)
      intro b hb
      rcases mem_insertBy.mp hb with hb | hb
      · rcases htot x y with h' | h'
        · exact absurd h' hxy
        · exact hb ▸ h'
      · exact hy b hb

theorem pairwise_sortBy {α : Type} {le : α → α → Bool}
    (htot : ∀ a b, le a b = true ∨ le b a = true)
    (htrans : ∀ a b c, le a b = true → le b c = true → le a c = true)
    (l : List α) : (sortBy le l).Pairwise (fun a b => le a b = true) := by
  induction l with
  | nil => simp [sortBy]
  | cons x xs ih => exact pairwise_insertBy htot htrans ih

/-! ### Vectors and the flat L2 index (faiss IndexFlatL2) -/

/-- An embedding vector. -/
abbrev Vec := List Int

/-- Squared Euclidean distance, the metric IndexFlatL2 reports. -/
def dist2 (a b : Vec) : Int :=
  ((a.zip b).map (fun p => (p.1 - p.2) * (p.1 - p.2))).sum

/-- Ascending-by-distance comparison on (ordinal, distance) pairs,
ties broken by ordinal. -/
def distAscLe (a b : Nat × Int) : Bool :=
  decide (a.2 < b.2) || (decide (a.2 = b.2) && decide (a.1 ≤ b.1))

/-- vectorIndex.search(queryEmbedding, k): the k nearest stored vectors,
as (ordinal, distance) pairs ascending by distance. -/
def faissSearch (vecs : List Vec) (q : Vec) (k : Nat) : List (Nat × Int) :=
  (sortBy distAscLe (vecs.enum.map (fun p => (p.1, dist2 q p.2)))).take k

/-- The two persisted artifacts, loaded together: note_vectors.index and
the note_vectors.json ordinal-to-identifier map. -/
structure IndexData where
  vectors : List Vec
  idMap : List String

/-- Process state of the server: the database, whether the embedding model
initialized, the embedding function itself, and the loaded index artifacts
(none when loading fails or the artifacts are absent). -/
structure ServerState where
  db : Db
  embedderOk : Bool
  embed : String → Except String Vec
  index : Option IndexData

/-- createEmbedding: throws when the model cannot initialize, otherwise
runs the model (which can itself fail on a given text). -/
def createEmbedding (st : ServerState) (text : String) : Except String Vec :=
  if st.embedderOk then st.embed text
  else Except.error "Failed to initialize embedding model"

/-- Whether the retrieve_for_rag tool is registered and semantic search
selected: modelInitialized && indexLoaded, fixed at startup. -/
def hasSemanticSearch (st : ServerState) : Bool :=
  st.embedderOk && st.index.isSome

/-! ### Search results and enrichment -/

/-- A result row after enrichment: the selected columns, converted
creation date, attached tags, and the similarity score (none on the
keyword path, which never sets one). -/
structure FoundNote where
  id : String
  title : Option String
  content : Option String
  subtitle : Option String
  creationDate : DateField
  tags : List String
  score : Option Int
deriving DecidableEq

/-- Enrichment on the keyword / get_note paths: tags plus date conversion,
no score. -/
def enrichKeyword (db : Db) (n : Note) : FoundNote :=
  ⟨n.id, n.title, n.content, n.subtitle, convertCreationDate n.creationDate,
   tagsFor db n.id, none⟩

/-- ORDER BY ZMODIFICATIONDATE DESC. -/
def modDescLe (a b : Note) : Bool := decide (b.modificationDate ≤ a.modificationDate)

/-- The score the sort comparator reads (undefined score sorts as 0). -/
def scoreVal (n : FoundNote) : Int := n.score.getD 0

/-- notes.sort((a, b) => b.score - a.score): descending by score. -/
def scoreDescLe (a b : FoundNote) : Bool := decide (scoreVal b ≤ scoreVal a)

/-- labels.map(idx => noteIdMap[idx]).filter(id => id): ordinals with no
mapped identifier (out of range, i.e. undefined) or an empty identifier
are dropped, compacting the list. -/
def noteIdsOf (idMap : List String) (labels : List Nat) : List String :=
  (labels.map (fun i => (idMap.get? i).getD "")).filter (fun s => !s.isEmpty)

/-- Enrichment on the semantic path: tags, date conversion, and the score
1 - distances[noteIds.indexOf(note.id)] (0 when the id is absent). -/
def enrichSemantic (db : Db) (noteIds : List String) (distances : List Int)
    (n : Note) : FoundNote :=
  ⟨n.id, n.title, n.content, n.subtitle, convertCreationDate n.creationDate,
   tagsFor db n.id,
   some (match noteIds.findIdx? (fun s => decide (s = n.id)) with
         | some j => 1 - distances.getD j 0
         | none => 0)⟩

/-- The enrichment block of semanticSearch: fetch the candidate rows
(WHERE id IN noteIds AND ZTRASHED = 0 ORDER BY ZMODIFICATIONDATE DESC),
enrich each, then sort by descending score. -/
def enrichAll (db : Db) (noteIds : List String) (distances : List Int) :
    List FoundNote :=
  sortBy scoreDescLe
    ((sortBy modDescLe
      (db.notes.filter (fun n => decide (n.id ∈ noteIds) && !n.trashed))).map
      (enrichSemantic db noteIds distances))

/-- semanticSearch after a successful vector query: map ordinals through
the position map, return [] when nothing is mapped, otherwise enrich. -/
def semanticFromPairs (db : Db) (idMap : List String)
    (pairs : List (Nat × Int)) : List FoundNote :=
  if (noteIdsOf idMap (pairs.map Prod.fst)).isEmpty then []
  else enrichAll db (noteIdsOf idMap (pairs.map Prod.fst)) (pairs.map Prod.snd)

/-- The body of semanticSearch once the index is loaded and the query
embedded. -/
def semanticCore (db : Db) (idx : IndexData) (qv : Vec) (limit : Nat) :
    List FoundNote :=
  semanticFromPairs db idx.idMap (faissSearch idx.vectors qv limit)

/-- semanticSearch(db, query, limit): throws when the index is unavailable
or the query cannot be embedded, otherwise returns the enriched, scored,
score-sorted results. -/
def semanticSearch (st : ServerState) (query : String) (limit : Nat) :
    Except String (List FoundNote) :=
  match st.index with
  | none => Except.error "Vector index not available. Please run indexing first."
  | some idx =>
    match createEmbedding st query with
    | Except.error e => Except.error e
    | Except.ok qv => Except.ok (semanticCore st.db idx qv limit)

/-- The keyword SQL: non-trashed rows whose title or content LIKE-matches
the percent-wrapped query, most recently modified first, LIMIT rows. -/
def keywordBase (db : Db) (q : String) (limit : Nat) : List Note :=
  (sortBy modDescLe
    (db.notes.filter (fun n => !n.trashed && matchesKeyword q n))).take limit

/-- The keyword search path of searchNotes: the SQL rows, enriched. -/
def keywordSearch (db : Db) (q : String) (limit : Nat) : List FoundNote :=
  (keywordBase db q limit).map (enrichKeyword db)

/-- searchNotes(db, query, limit, useSemanticSearch): try semantic search
when requested, fall back to keyword search when it throws or returns no
results. -/
def searchNotes (st : ServerState) (q : String) (limit : Nat)
    (useSemanticSearch : Bool) : Except String (List FoundNote) :=
  if useSemanticSearch then
    match semanticSearch st q limit with
    | Except.ok rs =>
      if rs.isEmpty then Except.ok (keywordSearch st.db q limit)
      else Except.ok rs
    | Except.error _ => Except.ok (keywordSearch st.db q limit)
  else Except.ok (keywordSearch st.db q limit)

/-- retrieveNote(db, id): reject a falsy id, look the row up with the
trashed filter, enrich it. -/
def retrieveNote (db : Db) (id : String) : Except String FoundNote :=
  if id.isEmpty then Except.error "Note ID is required"
  else
    match (db.notes.filter (fun n => decide (n.id = id) && !n.trashed)).head? with
    | none => Except.error "Note not found"
    | some n => Except.ok (enrichKeyword db n)

/-- A retrieve_for_rag context item: identifier, title, content, tags, and
a score only when semantic retrieval produced one. -/
structure RagItem where
  id : String
  title : Option String
  content : Option String
  tags : List String
  score : Option Int
deriving DecidableEq

/-- The RAG formatting of a semantic result (keeps the score). -/
def toRagScored (n : FoundNote) : RagItem := ⟨n.id, n.title, n.content, n.tags, n.score⟩

/-- The RAG formatting of a keyword fallback result (no score field). -/
def toRagPlain (n : FoundNote) : RagItem := ⟨n.id, n.title, n.content, n.tags, none⟩

/-- retrieveForRAG(db, query, limit): semantic results formatted with
scores; on any semantic error, keyword results formatted without scores. -/
def retrieveForRAG (st : ServerState) (q : String) (limit : Nat) :
    Except String (List RagItem) :=
  match semanticSearch st q limit with
  | Except.ok notes => Except.ok (notes.map toRagScored)
  | Except.error _ =>
    match searchNotes st q limit false with
    | Except.ok notes => Except.ok (notes.map toRagPlain)
    | Except.error e => Except.error e

/-- The toolResult the search_notes handler returns. -/
structure SearchToolResult where
  notes : List FoundNote
  searchMethod : String
  error : Option String
deriving DecidableEq

/-- The search_notes branch of the CallToolRequestSchema handler:
searchMethod is computed from the request (useSemanticSearch), not from
what produced the notes. -/
def handleSearchNotes (st : ServerState) (query : String) (limit : Nat)
    (semantic : Bool) : SearchToolResult :=
  let useSem := semantic && hasSemanticSearch st
  match searchNotes st query limit useSem with
  | Except.ok notes =>
    ⟨notes, if useSem then "semantic" else "keyword", none⟩
  | Except.error e => ⟨[], "keyword", some ("Search failed: " ++ e)⟩

/-! ### The index builder (create-index.js) -/

/-- JS template-literal rendering of a nullable column: null prints as
the string "null". -/
def jsDisplay : Option String → String
  | none => "null"
  | some s => s

/-- String.prototype.trim: strip whitespace from both ends. -/
def jsTrim (s : String) : String :=
  ⟨((s.data.dropWhile Char.isWhitespace).reverse.dropWhile
      Char.isWhitespace).reverse⟩

/-- textToEmbed for one note: `title\n(content or empty)`, trimmed. -/
def combinedText (n : Note) : String :=
  jsTrim (jsDisplay n.title ++ "\n" ++ n.content.getD "")

/-- The indexing loop of createVectorIndex: skip notes with empty combined
text, embed the rest, on success append the vector to the index and the
identifier to the map at the same ordinal, on error append to neither. -/
def createVectorIndex (embed : String → Except String Vec) :
    List Note → List Vec × List String
  | [] => ([], [])
  | n :: rest =>
    if (combinedText n).isEmpty then createVectorIndex embed rest
    else
      match embed (combinedText n) with
      | Except.ok v =>
        let res := createVectorIndex embed rest
        (v :: res.1, n.id :: res.2)
      | Except.error _ => createVectorIndex embed rest

/-- The full index build: the loop applied to the non-trashed rows
(SELECT ... FROM ZSFNOTE WHERE ZTRASHED = 0). -/
def buildNoteIndex (db : Db) (embed : String → Except String Vec) :
    List Vec × List String :=
  createVectorIndex embed (db.notes.filter (fun n => !n.trashed))

/-- The (vector, identifier) pairs the build should produce, one per
non-skipped note in corpus order. -/
def indexedEntries (embed : String → Except String Vec) (notes : List Note) :
    List (Vec × String) :=
  notes.filterMap (fun n =>
    if (combinedText n).isEmpty then none
    else
      match embed (combinedText n) with
      | Except.ok v => some (v, n.id)
      | Except.error _ => none)

/-! ### General lemmas about the engine -/

/-- A successful semanticSearch went through a loaded index and a
successful query embedding, and returned the core pipeline's output. -/
theorem semanticSearch_ok_elim {st : ServerState} {q : String} {limit : Nat}
    {rs : List FoundNote} (h : semanticSearch st q limit = Except.ok rs) :
    ∃ idx qv, st.index = some idx ∧ createEmbedding st q = Except.ok qv ∧
      rs = semanticCore st.db idx qv limit := by
  unfold semanticSearch at h
  cases hI : st.index with
  | none => rw [hI] at h; exact absurd h (by simp)
  | some idx =>
    rw [hI] at h
    cases hE : createEmbedding st q with
    | error e => rw [hE] at h; exact absurd h (by simp)
    | ok qv =>
      rw [hE] at h
      refine ⟨idx, qv, rfl, rfl, ?_⟩
      injection h with h'
      exact h'.symm

/-- Every result of the semantic enrichment pipeline is the enrichment of
a non-trashed database row whose identifier was among the mapped ids. -/
theorem mem_enrichAll {db : Db} {noteIds : List String} {distances : List Int}
    {fn : FoundNote} (h : fn ∈ enrichAll db noteIds distances) :
    ∃ n, n ∈ db.notes ∧ n.trashed = false ∧ n.id ∈ noteIds ∧
      fn = enrichSemantic db noteIds distances n := by
  unfold enrichAll at h
  obtain ⟨n, hn, rfl⟩ := List.mem_map.mp (mem_sortBy.mp h)
  have hn' := List.mem_filter.mp (mem_sortBy.mp hn)
  obtain ⟨hmem, hpred⟩ := hn'
  rw [Bool.and_eq_true] at hpred
  obtain ⟨h1, h2⟩ := hpred
  refine ⟨n, hmem, ?_, of_decide_eq_true h1, rfl⟩
  simpa using h2

/-- Provenance through semanticFromPairs. -/
theorem mem_semanticFromPairs {db : Db} {idMap : List String}
    {pairs : List (Nat × Int)} {fn : FoundNote}
    (h : fn ∈ semanticFromPairs db idMap pairs) :
    ∃ n, n ∈ db.notes ∧ n.trashed = false ∧
      fn = enrichSemantic db (noteIdsOf idMap (pairs.map Prod.fst))
        (pairs.map Prod.snd) n := by
  unfold semanticFromPairs at h
  split at h
  · simp at h
  · obtain ⟨n, h1, h2, _, h4⟩ := mem_enrichAll h
    exact ⟨n, h1, h2, h4⟩

/-- The semantic pipeline returns at most as many rows as there are mapped
identifiers, provided identifiers are unique in the note table. -/
theorem length_enrichAll_le (db : Db) (noteIds : List String)
    (distances : List Int) (hnd : (db.notes.map Note.id).Nodup) :
    (enrichAll db noteIds distances).length ≤ noteIds.length := by
  unfold enrichAll
  rw [length_sortBy, List.length_map, length_sortBy]
  have hsub : (db.notes.filter
      (fun n => decide (n.id ∈ noteIds) && !n.trashed)).Sublist db.notes :=
    List.filter_sublist _
  have hndfl := ((hsub.map Note.id).nodup hnd)
  have hss : ((db.notes.filter
      (fun n => decide (n.id ∈ noteIds) && !n.trashed)).map Note.id) ⊆ noteIds := by
    intro x hx
    obtain ⟨n, hn, rfl⟩ := List.mem_map.mp hx
    have hpred := (List.mem_filter.mp hn).2
    rw [Bool.and_eq_true] at hpred
    exact of_decide_eq_true hpred.1
  have hle := (hndfl.subperm hss).length_le
  rwa [List.length_map] at hle

theorem length_semanticFromPairs_le (db : Db) (idMap : List String)
    (pairs : List (Nat × Int)) (hnd : (db.notes.map Note.id).Nodup) :
    (semanticFromPairs db idMap pairs).length ≤ pairs.length := by
  unfold semanticFromPairs
  split
  · simp
  · refine (length_enrichAll_le db _ _ hnd).trans ?_
    unfold noteIdsOf
    refine (List.length_filter_le _ _).trans ?_
    simp

theorem length_faissSearch_le (vecs : List Vec) (q : Vec) (k : Nat) :
    (faissSearch vecs q k).length ≤ k := List.length_take_le k _

theorem length_semanticCore_le (db : Db) (idx : IndexData) (qv : Vec)
    (limit : Nat) (hnd : (db.notes.map Note.id).Nodup) :
    (semanticCore db idx qv limit).length ≤ limit :=
  (length_semanticFromPairs_le db idx.idMap _ hnd).trans
    (length_faissSearch_le idx.vectors qv limit)

/-- The semantic pipeline's output is sorted by descending score. -/
theorem pairwise_enrichAll (db : Db) (noteIds : List String)
    (distances : List Int) :
    (enrichAll db noteIds distances).Pairwise
      (fun a b => scoreVal b ≤ scoreVal a) := by
  have htot : ∀ a b : FoundNote,
      scoreDescLe a b = true ∨ scoreDescLe b a = true := by
    intro a b
    unfold scoreDescLe
    rcases le_total (scoreVal b) (scoreVal a) with h | h
    · exact Or.inl (decide_eq_true h)
    · exact Or.inr (decide_eq_true h)
  have htrans : ∀ a b c : FoundNote, scoreDescLe a b = true →
      scoreDescLe b c = true → scoreDescLe a c = true := by
    intro a b c h1 h2
    exact decide_eq_true
      (le_trans (of_decide_eq_true h2) (of_decide_eq_true h1))
  exact (pairwise_sortBy htot htrans _).imp (fun h => of_decide_eq_true h)

theorem pairwise_semanticCore (db : Db) (idx : IndexData) (qv : Vec)
    (limit : Nat) :
    (semanticCore db idx qv limit).Pairwise
      (fun a b => scoreVal b ≤ scoreVal a) := by
  unfold semanticCore semanticFromPairs
  split
  · exact List.Pairwise.nil
  · exact pairwise_enrichAll _ _ _

/-- enrichSemantic always attaches a score. -/
theorem score_isSome_of_semantic_ok {st : ServerState} {q : String}
    {limit : Nat} {ns : List FoundNote}
    (h : semanticSearch st q limit = Except.ok ns) :
    ∀ n ∈ ns, n.score.isSome = true := by
  obtain ⟨idx, qv, _, _, rfl⟩ := semanticSearch_ok_elim h
  intro n hn
  obtain ⟨m, _, _, rfl⟩ := mem_semanticFromPairs hn
  rfl

/-- The empty suffix is always a tail. -/
theorem nil_mem_tails {α : Type} (l : List α) : [] ∈ l.tails := by
  induction l with
  | nil => simp
  | cons a l ih => simp [ih]

/-- The whole string is always a tail. -/
theorem self_mem_tails {α : Type} (l : List α) : l ∈ l.tails := by
  cases l <;> simp

/-- A single percent matches any string. -/
theorem likeMatch_pct (cs : List Char) : likeMatch ['%'] cs = true := by
  unfold likeMatch
  simp only [if_pos rfl]
  exact List.any_eq_true.mpr ⟨[], nil_mem_tails cs, rfl⟩

/-- The pattern built from the empty query matches any string. -/
theorem likeMatch_pct_pct (cs : List Char) : likeMatch ['%', '%'] cs = true := by
  unfold likeMatch
  simp only [if_pos rfl]
  exact List.any_eq_true.mpr ⟨cs, self_mem_tails cs, likeMatch_pct cs⟩

/-- With the empty query, a row matches the keyword WHERE clause exactly
when its title or content is non-NULL. -/
theorem matchesKeyword_empty (n : Note) :
    matchesKeyword "" n = (n.title.isSome || n.content.isSome) := by
  have hpat : likePattern "" = ['%', '%'] := rfl
  unfold matchesKeyword
  rw [hpat]
  cases n.title <;> cases n.content <;>
    simp [likeOpt, likeMatch_pct_pct]

/-! ### Claim C1 -/

/-- A server whose index is loaded and whose position map holds only an
empty identifier, over a database with one note titled "apple". -/
def c1State : ServerState :=
  ⟨⟨[⟨"n1", some "apple", none, none, some 1, 5, false⟩], []⟩,
   true, fun _ => Except.ok [0], some ⟨[[1]], [""]⟩⟩

/-- C1: FALSIFIED ON THE CODE (code bug). The claim says the search_notes
response's method field reports which method actually produced the
results. At c1State the semantic attempt succeeds with zero results, the
fallback keyword search produces the returned (non-empty) notes, and yet
the handler reports "semantic": searchMethod is computed from the request
(useSemanticSearch) alone, never from the path that produced the notes. -/
theorem c1_search_method_code_bug :
    semanticSearch c1State "a" 10 = Except.ok []
    ∧ handleSearchNotes c1State "a" 10 true =
        ⟨keywordSearch c1State.db "a" 10, "semantic", none⟩
    ∧ (keywordSearch c1State.db "a" 10).isEmpty = false :=
  ⟨rfl, rfl, rfl⟩

/-! ### Claim C2 -/

/-- A server whose index holds two vectors while the position map has no
identifier for ordinal 0 (empty string, filtered out as falsy). -/
def c2State : ServerState :=
  ⟨⟨[⟨"B", some "b", none, none, none, 3, false⟩], []⟩,
   true, fun _ => Except.ok [0], some ⟨[[0], [2]], ["", "B"]⟩⟩

/-- C2: FALSIFIED ON THE CODE (code bug). The claim says each semantic
result's score is 1 minus THAT note's own distance even when skipped
ordinals are present. At c2State the query is at distance 0 from ordinal 0
(which has no mapped identifier and is skipped) and at distance 4 from
note B's ordinal 1; the skip compacts noteIds to ["B"] while distances
stays [0, 4], so noteIds.indexOf("B") = 0 picks up distances[0] and B is
scored 1 - 0 = 1 instead of 1 - 4 = -3. -/
theorem c2_score_code_bug :
    semanticSearch c2State "q" 10 =
      Except.ok [⟨"B", some "b", none, none, DateField.null, [], some 1⟩]
    ∧ noteIdsOf ["", "B"] [0, 1] = ["B"]
    ∧ dist2 [(0 : Int)] [(2 : Int)] = 4
    ∧ decide ((1 : Int) = 1 - dist2 [(0 : Int)] [(2 : Int)]) = false :=
  ⟨rfl, rfl, rfl, rfl⟩

/-! ### Claim C3 -/

/-- A database holding one note whose stored creation timestamp is the
domain epoch 0. -/
def c3Db : Db := ⟨[⟨"n1", some "t", some "c", none, some 0, 1, false⟩], []⟩

/-- C3: FALSIFIED ON THE CODE (code bug). The claim (and the spec) say a
stored creation timestamp of 0 is returned as 2001-01-01T00:00:00Z, i.e.
Unix second 978307200. The conversion is guarded by JS truthiness, which
is false at 0, so 0 is returned unconverted; any non-zero timestamp is
converted by adding the fixed offset, as the last conjunct shows. -/
theorem c3_timestamp_zero_code_bug :
    convertCreationDate (some 0) = DateField.raw 0
    ∧ decide (DateField.raw 0 = DateField.iso 978307200) = false
    ∧ retrieveNote c3Db "n1" =
        Except.ok ⟨"n1", some "t", some "c", none, DateField.raw 0, [], none⟩
    ∧ convertCreationDate (some 2) = DateField.iso 978307202 :=
  ⟨rfl, rfl, rfl, rfl⟩

/-! ### Claim C4 -/

/-- C4: whenever the semantic attempt throws (index artifacts absent,
embedding failure, or any other error), searchNotes with semantic
requested does not raise and returns exactly the keyword results, which
are identical to a semantic=false search. -/
theorem c4_semantic_failure_fallback (st : ServerState) (q : String)
    (limit : Nat) (e : String)
    (h : semanticSearch st q limit = Except.error e) :
    searchNotes st q limit true = Except.ok (keywordSearch st.db q limit)
    ∧ searchNotes st q limit true = searchNotes st q limit false := by
  constructor <;> simp [searchNotes, h]

/-- A server with no index artifacts on disk. -/
def c4State : ServerState := ⟨⟨[], []⟩, true, fun _ => Except.ok [], none⟩

/-- Witness for C4: at c4State the semantic attempt fails with the
index-not-available error and the fallback equivalence holds. -/
theorem c4_semantic_failure_fallback_app :
    searchNotes c4State "x" 5 true =
      Except.ok (keywordSearch c4State.db "x" 5)
    ∧ searchNotes c4State "x" 5 true = searchNotes c4State "x" 5 false :=
  c4_semantic_failure_fallback c4State "x" 5
    "Vector index not available. Please run indexing first." rfl

/-! ### Claim C5 -/

/-- The build loop keeps the vector list and the identifier list aligned:
their zip is exactly one (vector, identifier) pair per note whose combined
text is non-empty and whose embedding succeeds, in corpus order. -/
theorem createVectorIndex_spec (embed : String → Except String Vec)
    (notes : List Note) :
    (createVectorIndex embed notes).1.length =
      (createVectorIndex embed notes).2.length
    ∧ (createVectorIndex embed notes).1.zip (createVectorIndex embed notes).2 =
      indexedEntries embed notes := by
  induction notes with
  | nil => exact ⟨rfl, rfl⟩
  | cons n rest ih =>
    obtain ⟨ih1, ih2⟩ := ih
    by_cases hE : (combinedText n).isEmpty
    · simpa [createVectorIndex, indexedEntries, hE, List.filterMap_cons]
        using ⟨ih1, ih2⟩
    · cases hEmb : embed (combinedText n) with
      | ok v =>
        simpa [createVectorIndex, indexedEntries, hE, hEmb,
          List.filterMap_cons] using ⟨ih1, ih2⟩
      | error e =>
        simpa [createVectorIndex, indexedEntries, hE, hEmb,
          List.filterMap_cons] using ⟨ih1, ih2⟩

/-- C5: after every index build the vector index and the position map have
the same length, and ordinal i of both comes from the same source note:
their zip enumerates exactly the non-trashed notes with non-empty combined
text whose embedding succeeded, in corpus order; empty-text and
failed-embedding notes are excluded from both structures. -/
theorem c5_index_map_alignment (db : Db)
    (embed : String → Except String Vec) :
    (buildNoteIndex db embed).1.length = (buildNoteIndex db embed).2.length
    ∧ (buildNoteIndex db embed).1.zip (buildNoteIndex db embed).2 =
      indexedEntries embed (db.notes.filter (fun n => !n.trashed)) :=
  createVectorIndex_spec embed (db.notes.filter (fun n => !n.trashed))

/-! ### Claim C6 -/

/-- C6: a successful semantic search (index available, embedding ok)
returns at most limit results, sorted in descending order of score.
Uniqueness of identifiers in the note table (its primary key) bounds the
enrichment query's row count by the candidate identifier count. -/
theorem c6_semantic_limit_and_sorted (st : ServerState) (q : String)
    (limit : Nat) (rs : List FoundNote) (_hlim : 1 ≤ limit)
    (hnd : (st.db.notes.map Note.id).Nodup)
    (h : semanticSearch st q limit = Except.ok rs) :
    rs.length ≤ limit ∧ rs.Pairwise (fun a b => scoreVal b ≤ scoreVal a) := by
  obtain ⟨idx, qv, _, _, rfl⟩ := semanticSearch_ok_elim h
  exact ⟨length_semanticCore_le st.db idx qv limit hnd,
    pairwise_semanticCore st.db idx qv limit⟩

/-- A server with a loaded one-vector index correctly mapped to note A. -/
def c6State : ServerState :=
  ⟨⟨[⟨"A", some "t", none, none, some 2, 7, false⟩], []⟩,
   true, fun _ => Except.ok [0], some ⟨[[0]], ["A"]⟩⟩

/-- Witness for C6: at c6State the semantic search succeeds with one
result, which is within the limit and sorted. -/
theorem c6_semantic_limit_and_sorted_app :
    ([⟨"A", some "t", none, none, DateField.iso 978307202, [], some 1⟩] :
      List FoundNote).length ≤ 10
    ∧ ([⟨"A", some "t", none, none, DateField.iso 978307202, [], some 1⟩] :
      List FoundNote).Pairwise (fun a b => scoreVal b ≤ scoreVal a) :=
  c6_semantic_limit_and_sorted c6State "q" 10
    [⟨"A", some "t", none, none, DateField.iso 978307202, [], some 1⟩]
    (by decide) (by decide) rfl

/-! ### Claim C7 -/

/-- A database with a single non-trashed note titled "abc" and NULL
content. -/
def c7Db : Db := ⟨[⟨"n1", some "abc", none, none, none, 1, false⟩], []⟩

/-- Counterexample to C7 as stated: the keyword search for the query
"a%c" returns the note titled "abc" although "a%c" is not a substring of
its title (and its content is NULL), because the query is interpolated
into a LIKE pattern where the percent acts as a wildcard. -/
theorem c7_substring_counterexample :
    keywordSearch c7Db "a%c" 10 =
      [⟨"n1", some "abc", none, none, DateField.null, [], none⟩]
    ∧ hasSubstr "a%c".data "abc".data = false :=
  ⟨rfl, rfl⟩

/-- C7 as amended: the keyword path returns only non-trashed notes whose
title or content matches the percent-wrapped query under SQL LIKE
semantics, ordered by most-recently-modified first, at most limit rows,
each enriched with tags and converted date and without a score. -/
theorem c7_keyword_like_semantics (db : Db) (q : String) (limit : Nat) :
    ∃ ns : List Note,
      (∀ n ∈ ns, n ∈ db.notes ∧ n.trashed = false ∧ matchesKeyword q n = true)
      ∧ ns.Pairwise (fun a b => b.modificationDate ≤ a.modificationDate)
      ∧ ns.length ≤ limit
      ∧ keywordSearch db q limit = ns.map (enrichKeyword db) := by
  refine ⟨keywordBase db q limit, ?_, ?_, List.length_take_le _ _, rfl⟩
  · intro n hn
    have hn' := mem_sortBy.mp (List.mem_of_mem_take hn)
    obtain ⟨hmem, hpred⟩ := List.mem_filter.mp hn'
    rw [Bool.and_eq_true] at hpred
    obtain ⟨h1, h2⟩ := hpred
    exact ⟨hmem, by simpa using h1, h2⟩
  · have htot : ∀ a b : Note, modDescLe a b = true ∨ modDescLe b a = true := by
      intro a b
      unfold modDescLe
      rcases le_total b.modificationDate a.modificationDate with h | h
      · exact Or.inl (decide_eq_true h)
      · exact Or.inr (decide_eq_true h)
    have htrans : ∀ a b c : Note, modDescLe a b = true →
        modDescLe b c = true → modDescLe a c = true := by
      intro a b c h1 h2
      exact decide_eq_true
        (le_trans (of_decide_eq_true h2) (of_decide_eq_true h1))
    have hp := pairwise_sortBy htot htrans
      (db.notes.filter (fun n => !n.trashed && matchesKeyword q n))
    exact ((hp.sublist (List.take_sublist _ _)).imp
      (fun h => of_decide_eq_true h))

/-! ### Claim C8 -/

/-- C8: retrieveForRAG never raises (on our total repository model): it
always returns ok. When the semantic attempt throws, it returns the
keyword results formatted without a score; when the semantic attempt
succeeds, every context item carries a score. Items always carry exactly
identifier, title, content, tags and the optional score. -/
theorem c8_rag_fallback_shape (st : ServerState) (q : String) (limit : Nat) :
    (∃ items, retrieveForRAG st q limit = Except.ok items)
    ∧ (∀ e, semanticSearch st q limit = Except.error e →
        retrieveForRAG st q limit =
          Except.ok ((keywordSearch st.db q limit).map toRagPlain)
        ∧ ∀ item ∈ (keywordSearch st.db q limit).map toRagPlain,
            item.score = none)
    ∧ (∀ ns, semanticSearch st q limit = Except.ok ns →
        retrieveForRAG st q limit = Except.ok (ns.map toRagScored)
        ∧ ∀ item ∈ ns.map toRagScored, item.score.isSome = true) := by
  refine ⟨?_, ?_, ?_⟩
  · cases hS : semanticSearch st q limit with
    | ok ns => exact ⟨ns.map toRagScored, by simp [retrieveForRAG, hS]⟩
    | error e =>
      exact ⟨(keywordSearch st.db q limit).map toRagPlain,
        by simp [retrieveForRAG, hS, searchNotes]⟩
  · intro e hS
    refine ⟨by simp [retrieveForRAG, hS, searchNotes], ?_⟩
    intro item hitem
    obtain ⟨n, _, rfl⟩ := List.mem_map.mp hitem
    rfl
  · intro ns hS
    refine ⟨by simp [retrieveForRAG, hS], ?_⟩
    intro item hitem
    obtain ⟨n, hn, rfl⟩ := List.mem_map.mp hitem
    exact score_isSome_of_semantic_ok hS n hn

/-! ### Claim C9 -/

/-- A non-trashed note titled "abc" with NULL content, used to exhibit
the wildcard behaviour of the interpolated LIKE pattern. -/
def c9Note : Note := ⟨"x", some "abc", none, none, none, 0, false⟩

/-- C9: the query string is interpolated into a percent-wrapped LIKE
pattern, so a percent or underscore inside the query acts as a wildcard
(the queries "a%c" and "a_c" both match the title "abc" without being
substrings of it), and the empty query matches every non-trashed note
with a non-NULL title or content, up to the limit and in
recently-modified-first order. -/
theorem c9_like_wildcard_semantics :
    (∀ (db : Db) (limit : Nat),
      keywordSearch db "" limit =
        ((sortBy modDescLe (db.notes.filter
            (fun n => !n.trashed && (n.title.isSome || n.content.isSome)))).take
          limit).map (enrichKeyword db))
    ∧ matchesKeyword "a%c" c9Note = true
    ∧ hasSubstr "a%c".data "abc".data = false
    ∧ matchesKeyword "a_c" c9Note = true
    ∧ hasSubstr "a_c".data "abc".data = false := by
  refine ⟨?_, rfl, rfl, rfl, rfl⟩
  intro db limit
  unfold keywordSearch keywordBase
  rw [List.filter_congr (fun n _ => by rw [matchesKeyword_empty n])]

/-! ### Claim C10 -/

/-- C10: every note returned by a successful semantic search is backed by
a row of the note table that is not trashed at query time — the
enrichment query re-reads each candidate identifier with ZTRASHED = 0, so
notes trashed after the index was built are dropped (and the result can
be shorter than the vector query's candidate list). -/
theorem c10_semantic_excludes_trashed (st : ServerState) (q : String)
    (limit : Nat) (rs : List FoundNote)
    (h : semanticSearch st q limit = Except.ok rs) :
    ∀ fn ∈ rs, ∃ n, n ∈ st.db.notes ∧ n.trashed = false ∧ fn.id = n.id := by
  obtain ⟨idx, qv, _, _, rfl⟩ := semanticSearch_ok_elim h
  intro fn hfn
  obtain ⟨n, hmem, htr, rfl⟩ := mem_semanticFromPairs hfn
  exact ⟨n, hmem, htr, rfl⟩

/-- A server whose index maps ordinal 0 to a note that was trashed after
the build and ordinal 1 to a live note. -/
def c10State : ServerState :=
  ⟨⟨[⟨"T", some "x", none, none, none, 9, true⟩,
     ⟨"A", some "t", none, none, none, 7, false⟩], []⟩,
   true, fun _ => Except.ok [0], some ⟨[[0], [1]], ["T", "A"]⟩⟩

/-- Witness for C10: at c10State the vector query proposes both the
trashed note T and the live note A; the only returned row is backed by a
live (non-trashed) note. -/
theorem c10_semantic_excludes_trashed_app :
    ∃ n, n ∈ c10State.db.notes ∧ n.trashed = false ∧
      (⟨"A", some "t", none, none, DateField.null, [], some 0⟩ :
        FoundNote).id = n.id :=
  c10_semantic_excludes_trashed c10State "q" 10
    [⟨"A", some "t", none, none, DateField.null, [], some 0⟩] rfl
    ⟨"A", some "t", none, none, DateField.null, [], some 0⟩ (by decide)

end Bear
